import Mathlib

/-!
# Verification of the conversation branch store (`branchStorage`)

Shallow embedding of the branch-store module of the repository
(`loadState`, `saveState`, `createInitialState`, `getCurrentBranch`,
`saveMessages`, `createBranch`, `switchBranch`, `getAllBranches`,
`deleteBranch`, `clearAllConversations`) together with proofs of the
specified invariants and behavioural properties.

Modelling decisions, all taken from the source:

* A JavaScript object used as a string-keyed mapping (`state.branches`)
  is embedded as an association list `List (String × ConversationBranch)`
  in insertion order: assigning to an existing key updates it in place,
  assigning to a new key appends it, `delete` removes it, and
  `Object.keys` enumerates keys in insertion order.  JSON-parsed objects
  always have pairwise-distinct keys.
* `localStorage` is embedded as the `Store` structure holding the two
  keys the module uses (`liminal_backrooms_conversations` and
  `liminal_backrooms_current_branch`).  The conversations key holds
  either nothing, a blob on which `JSON.parse` throws, or a blob that
  parses (the source casts the parse result to `ConversationState`
  without validating its shape, so the parsed value is an arbitrary
  `ConversationState`, including ones whose `currentBranchId` keys no
  branch).
* The ambient execution context (`typeof window`, `Date.now()`,
  `crypto.randomUUID()`, `new Date().toLocaleString()`) is an explicit
  `Env` argument: `uuid n` is the n-th UUID drawn during the call, in
  call order; the `Date.now()` calls inside one operation are modelled
  as returning the same instant `now`.
* A thrown `Error` is an `Except.error` carrying the exact message
  string of the source; an operation that returns `Except.error` has not
  reached its `saveState` call, so the persisted store the caller holds
  is unchanged by construction.
-/

/-- `Message` from the shared types module: `role` and `type` are the
string literals of the source unions; `model` and `parentId` are
optional fields. -/
structure Message where
  id : String
  role : String
  content : String
  type : String
  timestamp : Nat
  model : Option String := none
  parentId : Option String := none
deriving Repr, DecidableEq

/-- `ConversationBranch` from the source. -/
structure ConversationBranch where
  id : String
  messages : List Message
  parentId : Option String := none
  timestamp : Nat
  title : String
deriving Repr, DecidableEq

/-- The `branches` object: an association list in JS insertion order. -/
abbrev Branches := List (String × ConversationBranch)

/-- `ConversationState` from the source (the persisted root). -/
structure ConversationState where
  branches : Branches
  currentBranchId : String
  lastUpdated : Nat
deriving Repr, DecidableEq

/-- `state.branches[k]`: first (unique) entry with key `k`. -/
def lookupBranch (bs : Branches) (k : String) : Option ConversationBranch :=
  match bs with
  | [] => none
  | (k', b) :: rest => if k' = k then some b else lookupBranch rest k

/-- `state.branches[k] = b`: update in place when the key exists,
append otherwise (JS object assignment keeps insertion order). -/
def setBranch (bs : Branches) (k : String) (b : ConversationBranch) : Branches :=
  match bs with
  | [] => [(k, b)]
  | (k', b') :: rest => if k' = k then (k, b) :: rest else (k', b') :: setBranch rest k b

/-- `delete state.branches[k]`. -/
def removeBranch (bs : Branches) (k : String) : Branches :=
  bs.filter (fun p => p.1 ≠ k)

/-- `Object.keys(state.branches)` in insertion order. -/
def branchKeys (bs : Branches) : List String :=
  bs.map (·.1)

/-- Content of the conversations storage key: a blob that parses to a
state (cast unvalidated in the source) or a blob `JSON.parse` rejects. -/
inductive StoredBlob where
  | parsed (s : ConversationState)
  | unparseable
deriving Repr, DecidableEq

/-- The two `localStorage` keys the module touches. -/
structure Store where
  storageKey : Option StoredBlob
  currentBranchKey : Option String
deriving Repr, DecidableEq

/-- `localStorage` before anything was ever persisted. -/
def emptyStore : Store := { storageKey := none, currentBranchKey := none }

/-- Ambient execution context of one operation call. -/
structure Env where
  hasWindow : Bool
  now : Nat
  uuid : Nat → String
  localeNow : String

/-- `createInitialState` from the source: the fresh branch id is the
first UUID drawn, the welcome message id the second. -/
def createInitialState (env : Env) : ConversationState :=
  let initialBranchId := env.uuid 0
  { branches := [(initialBranchId,
      { id := initialBranchId
        messages := [{ id := env.uuid 1
                       role := "assistant"
                       content := "Welcome to the Backrooms. What do you see around you?"
                       type := "text"
                       timestamp := env.now }]
        parentId := none
        timestamp := env.now
        title := "Initial Conversation" })]
    currentBranchId := initialBranchId
    lastUpdated := env.now }

/-- `loadState` from the source: outside a window context, or when the
stored blob is absent or fails to parse, fall back to
`createInitialState`; a blob that parses is used as-is. -/
def loadState (store : Store) (env : Env) : ConversationState :=
  if env.hasWindow = false then createInitialState env
  else
    match store.storageKey with
    | none => createInitialState env
    | some .unparseable => createInitialState env
    | some (.parsed s) => s

/-- Number of UUIDs `loadState` draws (two when it re-initializes,
none when it returns a parsed blob); a UUID drawn by the caller after
`loadState` returns is the next one in the supply. -/
def loadUUIDCount (store : Store) (env : Env) : Nat :=
  if env.hasWindow = false then 2
  else
    match store.storageKey with
    | none => 2
    | some .unparseable => 2
    | some (.parsed _) => 0

/-- `saveState` from the source: no-op outside a window context,
otherwise writes the serialized state and the redundant current-branch
key in lockstep. -/
def saveState (s : ConversationState) (store : Store) (env : Env) : Store :=
  if env.hasWindow = false then store
  else { storageKey := some (.parsed s), currentBranchKey := some s.currentBranchId }

/-- `getCurrentBranch` from the source.  The TS declared return type is
`ConversationBranch`, but `state.branches[state.currentBranchId]` is
`undefined` when the id keys no branch, so the honest embedding returns
an `Option`. -/
def getCurrentBranch (store : Store) (env : Env) : Option ConversationBranch :=
  let state := loadState store env
  lookupBranch state.branches state.currentBranchId

/-- `saveMessages` from the source.  When the current branch exists the
spread `{...currentBranch, messages, timestamp}` replaces its messages
and timestamp; when it is `undefined` the source spreads `undefined`,
storing a record with only `messages` and `timestamp` — the typed model
has no `undefined`, so that degenerate record is rendered with empty
`id`/`title` and no `parentId`. -/
def saveMessages (messages : List Message) (store : Store) (env : Env) : Store :=
  let state := loadState store env
  let newBranch : ConversationBranch :=
    match lookupBranch state.branches state.currentBranchId with
    | some currentBranch =>
        { currentBranch with messages := messages, timestamp := env.now }
    | none =>
        { id := "", messages := messages, parentId := none, timestamp := env.now, title := "" }
  saveState
    { branches := setBranch state.branches state.currentBranchId newBranch
      currentBranchId := state.currentBranchId
      lastUpdated := env.now }
    store env

/-- `createBranch` from the source: the new branch id is the next UUID
after those `loadState` drew; the title comes from the message matching
`messageId` (`content.slice(0, 30)`) or a locale timestamp fallback. -/
def createBranch (messageId : String) (messages : List Message)
    (store : Store) (env : Env) : Store × String :=
  let state := loadState store env
  let newBranchId := env.uuid (loadUUIDCount store env)
  let title :=
    match messages.find? (fun m => m.id = messageId) with
    | some titleMessage => "Branch from: " ++ titleMessage.content.take 30 ++ "..."
    | none => "Branch at " ++ env.localeNow
  let newState : ConversationState :=
    { branches := setBranch state.branches newBranchId
        { id := newBranchId
          messages := messages
          parentId := some state.currentBranchId
          timestamp := env.now
          title := title }
      currentBranchId := newBranchId
      lastUpdated := env.now }
  (saveState newState store env, newBranchId)

/-- `switchBranch` from the source: hard precondition check, then
repoint and persist, returning the (untouched) target branch. -/
def switchBranch (branchId : String) (store : Store) (env : Env) :
    Except String (Store × ConversationBranch) :=
  let state := loadState store env
  match lookupBranch state.branches branchId with
  | none => .error "Branch not found"
  | some b =>
      .ok (saveState
        { state with currentBranchId := branchId, lastUpdated := env.now }
        store env, b)

/-- `getAllBranches` from the source: every branch, most recently
touched first (stable sort on descending timestamp). -/
def getAllBranches (store : Store) (env : Env) : List ConversationBranch :=
  let state := loadState store env
  ((state.branches.map (·.2)).mergeSort (fun a b => b.timestamp ≤ a.timestamp))

/-- `deleteBranch` from the source: not-found check, last-branch check,
repoint the current pointer when deleting the current branch, remove,
persist.  The repoint is guarded by the truthiness test
`if (otherBranchId)`: it is skipped both when `find` returns
`undefined` (no other key) and when the found key is the empty string
(falsy in JavaScript), in which case `currentBranchId` keeps the
deleted id. -/
def deleteBranch (branchId : String) (store : Store) (env : Env) :
    Except String Store :=
  let state := loadState store env
  if (lookupBranch state.branches branchId).isNone then
    .error "Branch not found"
  else if (branchKeys state.branches).length = 1 then
    .error "Cannot delete the last branch"
  else
    let newCurrent :=
      if state.currentBranchId = branchId then
        match (branchKeys state.branches).find? (fun i => i ≠ branchId) with
        | some otherBranchId =>
            if otherBranchId = "" then state.currentBranchId else otherBranchId
        | none => state.currentBranchId
      else state.currentBranchId
    .ok (saveState
      { branches := removeBranch state.branches branchId
        currentBranchId := newCurrent
        lastUpdated := env.now }
      store env)

/-- `clearAllConversations` from the source: no-op outside a window
context, otherwise removes both storage keys. -/
def clearAllConversations (store : Store) (env : Env) : Store :=
  if env.hasWindow = false then store
  else emptyStore

/-! ## Validity of a state, reachability, and concrete fixtures -/

/-- The two structural invariants of the persisted root: the keys of
`branches` are pairwise distinct (always true of a JSON object) and
`currentBranchId` keys an existing branch. -/
def goodState (s : ConversationState) : Prop :=
  (branchKeys s.branches).Nodup ∧
    (lookupBranch s.branches s.currentBranchId).isSome = true

instance (s : ConversationState) : Decidable (goodState s) := by
  unfold goodState; infer_instance

/-- A storage content is good when any parsed blob it holds is a good
state. -/
def goodStore (st : Store) : Prop :=
  ∀ s : ConversationState, st.storageKey = some (StoredBlob.parsed s) → goodState s

/-- Stores reachable from the pristine storage by an arbitrary sequence
of `createBranch` / `deleteBranch` calls, each under an arbitrary
environment (`loadState` inside each call lazily initializes when
needed, exactly as in the source). -/
inductive ReachableCD : Store → Prop where
  | start : ReachableCD emptyStore
  | create (st : Store) (mid : String) (msgs : List Message) (env : Env) :
      ReachableCD st → ReachableCD (createBranch mid msgs st env).1
  | delete (st st' : Store) (bid : String) (env : Env) :
      ReachableCD st → deleteBranch bid st env = Except.ok st' → ReachableCD st'

/-- A concrete browser-context environment used by the witnesses. -/
def envA : Env :=
  { hasWindow := true, now := 5, uuid := fun n => "uuid" ++ toString n, localeNow := "loc" }

/-- A second environment with a distinct UUID supply (a later call). -/
def envB : Env :=
  { hasWindow := true, now := 9, uuid := fun n => "vuid" ++ toString n, localeNow := "loc2" }

/-- Concrete messages used by the witnesses. -/
def msg1 : Message :=
  { id := "m1", role := "user", content := "one", type := "text", timestamp := 1 }

def msg2 : Message :=
  { id := "m2", role := "assistant", content := "two", type := "text", timestamp := 2 }

def msg3 : Message :=
  { id := "m3", role := "user", content := "three", type := "text", timestamp := 3 }

/-- A concrete branch holding the three messages. -/
def brA : ConversationBranch :=
  { id := "A", messages := [msg1, msg2, msg3], parentId := none, timestamp := 4,
    title := "branch A" }

/-- A second concrete branch. -/
def brB : ConversationBranch :=
  { id := "B", messages := [msg1], parentId := some "A", timestamp := 6,
    title := "branch B" }

/-- A persisted store holding exactly the branch `brA`, current. -/
def store1 : Store :=
  { storageKey := some (StoredBlob.parsed
      { branches := [("A", brA)], currentBranchId := "A", lastUpdated := 4 })
    currentBranchKey := some "A" }

/-- A persisted store holding `brA` (current) and `brB`. -/
def store2 : Store :=
  { storageKey := some (StoredBlob.parsed
      { branches := [("A", brA), ("B", brB)], currentBranchId := "A", lastUpdated := 6 })
    currentBranchKey := some "A" }

/-- A parseable blob of unexpected shape: its `currentBranchId` keys no
entry of `branches`.  The source casts the parse result without
validation, so this is a reachable `loadState` result. -/
def badState : ConversationState :=
  { branches := [("A", brA)], currentBranchId := "Z", lastUpdated := 4 }

/-- A store persisting the ill-shaped blob `badState`. -/
def badStore : Store :=
  { storageKey := some (StoredBlob.parsed badState), currentBranchKey := some "Z" }

/-- A store persisting a blob on which `JSON.parse` throws. -/
def corruptStore : Store :=
  { storageKey := some StoredBlob.unparseable, currentBranchKey := some "A" }

/-- The weaker structural soundness used for the nonemptiness
invariant: distinct keys (always true of a JSON object) and a nonempty
branch mapping — it says nothing about the current pointer, which the
source can leave dangling (see the empty-key counterexamples). -/
def soundState (s : ConversationState) : Prop :=
  (branchKeys s.branches).Nodup ∧ s.branches ≠ []

instance (s : ConversationState) : Decidable (soundState s) := by
  unfold soundState; infer_instance

/-- A storage content is sound when any parsed blob it holds is a
sound state. -/
def soundStore (st : Store) : Prop :=
  ∀ s : ConversationState, st.storageKey = some (StoredBlob.parsed s) → soundState s

/-- A branch stored under the empty-string key — impossible via
`crypto.randomUUID`, but representable in a persisted blob, which
`loadState` accepts without validation. -/
def brEmptyKey : ConversationBranch :=
  { id := "", messages := [], parentId := none, timestamp := 7, title := "empty key" }

/-- A persisted store with branches under the keys "A" (current) and
"" — a `goodState` blob on which the repoint guard of `deleteBranch`
misfires. -/
def storeEK : Store :=
  { storageKey := some (StoredBlob.parsed
      { branches := [("A", brA), ("", brEmptyKey)], currentBranchId := "A",
        lastUpdated := 7 })
    currentBranchKey := some "A" }

/-- The store `deleteBranch "A"` persists from `storeEK` under `envA`:
the branch under "A" is removed but `currentBranchId` still holds the
deleted id "A", because the truthy check rejected the empty-string
key. -/
def storeEK2 : Store :=
  { storageKey := some (StoredBlob.parsed
      { branches := [("", brEmptyKey)], currentBranchId := "A", lastUpdated := 5 })
    currentBranchKey := some "A" }

/-- The welcome message `createInitialState` writes under `env`. -/
def welcomeMessage (env : Env) : Message :=
  { id := env.uuid 1, role := "assistant",
    content := "Welcome to the Backrooms. What do you see around you?",
    type := "text", timestamp := env.now }

/-- The welcome branch `createInitialState` writes under `env`. -/
def welcomeBranch (env : Env) : ConversationBranch :=
  { id := env.uuid 0, messages := [welcomeMessage env], parentId := none,
    timestamp := env.now, title := "Initial Conversation" }

/-! ## Association-list lemmas -/

theorem lookup_setBranch_self (bs : Branches) (k : String) (b : ConversationBranch) :
    lookupBranch (setBranch bs k b) k = some b := by
  induction bs with
  | nil => simp [setBranch, lookupBranch]
  | cons hd tl ih =>
      by_cases h : hd.1 = k
      · simp [setBranch, lookupBranch, h]
      · simp [setBranch, lookupBranch, h, ih]

theorem lookup_setBranch_ne (bs : Branches) (k k' : String) (b : ConversationBranch)
    (h : k' ≠ k) : lookupBranch (setBranch bs k b) k' = lookupBranch bs k' := by
  have h' : ¬k = k' := fun hkk => h hkk.symm
  induction bs with
  | nil => simp [setBranch, lookupBranch, h']
  | cons hd tl ih =>
      obtain ⟨a, c⟩ := hd
      by_cases hk : a = k
      · simp [setBranch, lookupBranch, hk, h']
      · by_cases hk' : a = k'
        · simp [setBranch, lookupBranch, hk, hk', h]
        · simp [setBranch, lookupBranch, hk, hk', ih]

theorem setBranch_ne_nil (bs : Branches) (k : String) (b : ConversationBranch) :
    setBranch bs k b ≠ [] := by
  cases bs with
  | nil => simp [setBranch]
  | cons hd tl =>
      by_cases h : hd.1 = k <;> simp [setBranch, h]

theorem branchKeys_setBranch_of_mem (bs : Branches) (k : String) (b : ConversationBranch)
    (h : k ∈ branchKeys bs) : branchKeys (setBranch bs k b) = branchKeys bs := by
  induction bs with
  | nil => cases h
  | cons hd tl ih =>
      obtain ⟨a, c⟩ := hd
      by_cases hk : a = k
      · simp [setBranch, branchKeys, hk]
      · have htl : k ∈ branchKeys tl := by
          rcases List.mem_cons.mp h with h1 | h1
          · exact absurd h1.symm hk
          · exact h1
        have hstep : branchKeys (setBranch ((a, c) :: tl) k b)
            = a :: branchKeys (setBranch tl k b) := by
          simp [setBranch, branchKeys, hk]
        rw [hstep, ih htl]
        rfl

theorem branchKeys_setBranch_of_not_mem (bs : Branches) (k : String) (b : ConversationBranch)
    (h : k ∉ branchKeys bs) : branchKeys (setBranch bs k b) = branchKeys bs ++ [k] := by
  induction bs with
  | nil => simp [setBranch, branchKeys]
  | cons hd tl ih =>
      obtain ⟨a, c⟩ := hd
      have ha : ¬a = k := fun hak => h (hak ▸ List.mem_cons_self _ _)
      have htl : k ∉ branchKeys tl := fun hm => h (List.mem_cons_of_mem _ hm)
      have : branchKeys (setBranch ((a, c) :: tl) k b)
          = a :: branchKeys (setBranch tl k b) := by
        simp [setBranch, branchKeys, ha]
      rw [this, ih htl]
      rfl

theorem nodup_branchKeys_setBranch (bs : Branches) (k : String) (b : ConversationBranch)
    (h : (branchKeys bs).Nodup) : (branchKeys (setBranch bs k b)).Nodup := by
  by_cases hk : k ∈ branchKeys bs
  · rw [branchKeys_setBranch_of_mem bs k b hk]; exact h
  · rw [branchKeys_setBranch_of_not_mem bs k b hk]
    simpa [List.nodup_append] using ⟨h, hk⟩

theorem lookup_removeBranch_ne (bs : Branches) (k k' : String) (h : k' ≠ k) :
    lookupBranch (removeBranch bs k) k' = lookupBranch bs k' := by
  induction bs with
  | nil => simp [removeBranch, lookupBranch]
  | cons hd tl ih =>
      obtain ⟨a, c⟩ := hd
      by_cases hk : a = k
      · have ha : ¬a = k' := fun h1 => h (h1 ▸ hk ▸ rfl)
        have hstep : removeBranch ((a, c) :: tl) k = removeBranch tl k := by
          simp [removeBranch, hk]
        rw [hstep, ih]
        simp [lookupBranch, ha]
      · have hstep : removeBranch ((a, c) :: tl) k = (a, c) :: removeBranch tl k := by
          simp [removeBranch, hk]
        rw [hstep]
        by_cases hk' : a = k'
        · simp [lookupBranch, hk']
        · simp [lookupBranch, hk', ih]

theorem mem_branchKeys_iff_lookup_isSome (bs : Branches) (k : String) :
    k ∈ branchKeys bs ↔ (lookupBranch bs k).isSome := by
  induction bs with
  | nil => simp [branchKeys, lookupBranch]
  | cons hd tl ih =>
      obtain ⟨a, c⟩ := hd
      by_cases hk : a = k
      · simp [branchKeys, lookupBranch, hk]
      · have hka : ¬k = a := fun h1 => hk h1.symm
        have hmem : branchKeys ((a, c) :: tl) = a :: branchKeys tl := rfl
        have hlup : lookupBranch ((a, c) :: tl) k = lookupBranch tl k := by
          simp [lookupBranch, hk]
        rw [hmem, hlup, List.mem_cons]
        simp only [hka, false_or]
        exact ih

theorem branchKeys_removeBranch (bs : Branches) (k : String) :
    branchKeys (removeBranch bs k) = (branchKeys bs).filter (fun i => i ≠ k) := by
  induction bs with
  | nil => simp [removeBranch, branchKeys]
  | cons hd tl ih =>
      obtain ⟨a, c⟩ := hd
      by_cases hk : a = k
      · have hstep : removeBranch ((a, c) :: tl) k = removeBranch tl k := by
          simp [removeBranch, hk]
        rw [hstep, ih]
        simp [branchKeys, hk, List.filter]
      · have hstep : removeBranch ((a, c) :: tl) k = (a, c) :: removeBranch tl k := by
          simp [removeBranch, hk]
        rw [hstep]
        have : branchKeys ((a, c) :: removeBranch tl k)
            = a :: branchKeys (removeBranch tl k) := rfl
        rw [this, ih]
        simp [branchKeys, List.filter, hk]

/-! ## State-validity lemmas -/

theorem createInitialState_eq (env : Env) :
    createInitialState env =
      { branches := [(env.uuid 0, welcomeBranch env)]
        currentBranchId := env.uuid 0
        lastUpdated := env.now } := rfl

theorem goodState_createInitialState (env : Env) :
    goodState (createInitialState env) := by
  constructor
  · simp [createInitialState, branchKeys]
  · simp [createInitialState, lookupBranch]

theorem goodState_loadState (st : Store) (env : Env) (h : goodStore st) :
    goodState (loadState st env) := by
  unfold loadState
  by_cases hw : env.hasWindow = false
  · simp [hw, goodState_createInitialState]
  · simp [hw]
    match hst : st.storageKey with
    | none => exact goodState_createInitialState env
    | some .unparseable => exact goodState_createInitialState env
    | some (.parsed s) => exact h s hst

theorem branches_ne_nil_of_goodState (s : ConversationState) (h : goodState s) :
    s.branches ≠ [] := by
  intro hnil
  have := h.2
  rw [hnil] at this
  simp [lookupBranch] at this

theorem saveState_eq (s : ConversationState) (st : Store) (env : Env)
    (hw : env.hasWindow = true) :
    saveState s st env =
      { storageKey := some (StoredBlob.parsed s)
        currentBranchKey := some s.currentBranchId } := by
  simp [saveState, hw]

theorem loadState_saveState (s : ConversationState) (st : Store) (env env2 : Env)
    (hw : env.hasWindow = true) (hw2 : env2.hasWindow = true) :
    loadState (saveState s st env) env2 = s := by
  rw [saveState_eq s st env hw]
  simp [loadState, hw2]

theorem goodStore_saveState (s : ConversationState) (st : Store) (env : Env)
    (hst : goodStore st) (hs : goodState s) : goodStore (saveState s st env) := by
  unfold saveState
  by_cases hw : env.hasWindow = false
  · simpa [hw] using hst
  · simp [hw]
    intro s' hs'
    cases hs'
    exact hs

theorem goodStore_emptyStore : goodStore emptyStore := by
  intro s hs
  simp [emptyStore] at hs

theorem goodStore_saveMessages (msgs : List Message) (st : Store) (env : Env)
    (hst : goodStore st) : goodStore (saveMessages msgs st env) := by
  unfold saveMessages
  apply goodStore_saveState _ _ _ hst
  have hgood := goodState_loadState st env hst
  constructor
  · exact nodup_branchKeys_setBranch _ _ _ hgood.1
  · simp [lookup_setBranch_self]

theorem goodStore_createBranch (mid : String) (msgs : List Message) (st : Store)
    (env : Env) (hst : goodStore st) : goodStore (createBranch mid msgs st env).1 := by
  unfold createBranch
  apply goodStore_saveState _ _ _ hst
  have hgood := goodState_loadState st env hst
  constructor
  · exact nodup_branchKeys_setBranch _ _ _ hgood.1
  · simp [lookup_setBranch_self]

theorem goodStore_switchBranch (bid : String) (st st2 : Store) (b : ConversationBranch)
    (env : Env) (hst : goodStore st)
    (h : switchBranch bid st env = Except.ok (st2, b)) : goodStore st2 := by
  have hgood := goodState_loadState st env hst
  simp only [switchBranch] at h
  split at h
  · cases h
  · rename_i b' hl
    cases h
    apply goodStore_saveState _ _ _ hst
    exact ⟨hgood.1, by simp [hl]⟩

theorem length_le_one_of_nodup_all_eq (l : List String) (a : String)
    (hnd : l.Nodup) (h : ∀ x ∈ l, x = a) : l.length ≤ 1 := by
  match l with
  | [] => simp
  | [x] => simp
  | x :: y :: t =>
      exfalso
      have hx : x = a := h x (by simp)
      have hy : y = a := h y (by simp)
      rcases List.nodup_cons.mp hnd with ⟨hxmem, _⟩
      apply hxmem
      rw [hx, ← hy]
      exact List.mem_cons_self y t

theorem find?_ne_isSome (l : List String) (a : String)
    (hnd : l.Nodup) (ha : a ∈ l) (hlen : l.length ≠ 1) :
    (l.find? (fun i => i ≠ a)).isSome = true := by
  cases hf : l.find? (fun i => i ≠ a) with
  | some j => rfl
  | none =>
      exfalso
      have hall := List.find?_eq_none.mp hf
      have heq : ∀ x ∈ l, x = a := by
        intro x hx
        have := hall x hx
        simpa using this
      have hle := length_le_one_of_nodup_all_eq l a hnd heq
      have hpos : 0 < l.length := List.length_pos.mpr (List.ne_nil_of_mem ha)
      omega

/-- `deleteBranch` keeps the current pointer valid provided no branch
key is the falsy empty string: then the key `find` returns (when the
current branch is deleted) passes the truthiness guard and the pointer
is repointed to it.  Without that proviso the guard can skip the
repoint and leave the pointer dangling (see the counterexamples). -/
theorem goodStore_deleteBranch_no_empty_key (bid : String) (st st' : Store) (env : Env)
    (hst : goodStore st)
    (hek : "" ∉ branchKeys (loadState st env).branches)
    (h : deleteBranch bid st env = Except.ok st') :
    goodStore st' := by
  have hgood := goodState_loadState st env hst
  simp only [deleteBranch] at h
  split at h
  · cases h
  · split at h
    · cases h
    · rename_i hnotnone hlen1
      cases h
      apply goodStore_saveState _ _ _ hst
      constructor
      · rw [branchKeys_removeBranch]
        exact hgood.1.filter _
      · by_cases hc : (loadState st env).currentBranchId = bid
        · have hmem : bid ∈ branchKeys (loadState st env).branches := by
            rw [mem_branchKeys_iff_lookup_isSome]
            exact Option.ne_none_iff_isSome.mp
              (fun hn => hnotnone (Option.isNone_iff_eq_none.mpr hn))
          have hfind := find?_ne_isSome (branchKeys (loadState st env).branches) bid
            hgood.1 hmem hlen1
          obtain ⟨j, hj⟩ := Option.isSome_iff_exists.mp hfind
          have hjne : j ≠ bid := by simpa using List.find?_some hj
          have hjmem : j ∈ branchKeys (loadState st env).branches :=
            List.mem_of_find?_eq_some hj
          have hjek : ¬j = "" := fun hj0 => hek (hj0 ▸ hjmem)
          simp only [hc, if_pos, hj, hjek, if_neg, if_false]
          rw [lookup_removeBranch_ne _ _ _ hjne]
          rw [← mem_branchKeys_iff_lookup_isSome]
          exact hjmem
        · simp only [hc, if_neg, if_false]
          rw [lookup_removeBranch_ne _ _ _ hc]
          exact hgood.2

theorem soundState_createInitialState (env : Env) :
    soundState (createInitialState env) := by
  constructor
  · simp [createInitialState, branchKeys]
  · simp [createInitialState]

theorem soundState_loadState (st : Store) (env : Env) (h : soundStore st) :
    soundState (loadState st env) := by
  unfold loadState
  by_cases hw : env.hasWindow = false
  · simp [hw, soundState_createInitialState]
  · simp [hw]
    match hst : st.storageKey with
    | none => exact soundState_createInitialState env
    | some .unparseable => exact soundState_createInitialState env
    | some (.parsed s) => exact h s hst

theorem soundStore_saveState (s : ConversationState) (st : Store) (env : Env)
    (hst : soundStore st) (hs : soundState s) : soundStore (saveState s st env) := by
  unfold saveState
  by_cases hw : env.hasWindow = false
  · simpa [hw] using hst
  · simp [hw]
    intro s' hs'
    cases hs'
    exact hs

theorem soundStore_emptyStore : soundStore emptyStore := by
  intro s hs
  simp [emptyStore] at hs

theorem soundStore_createBranch (mid : String) (msgs : List Message) (st : Store)
    (env : Env) (hst : soundStore st) : soundStore (createBranch mid msgs st env).1 := by
  unfold createBranch
  apply soundStore_saveState _ _ _ hst
  have hsound := soundState_loadState st env hst
  exact ⟨nodup_branchKeys_setBranch _ _ _ hsound.1, setBranch_ne_nil _ _ _⟩

theorem soundStore_deleteBranch (bid : String) (st st' : Store) (env : Env)
    (hst : soundStore st) (h : deleteBranch bid st env = Except.ok st') :
    soundStore st' := by
  have hsound := soundState_loadState st env hst
  simp only [deleteBranch] at h
  split at h
  · cases h
  · split at h
    · cases h
    · rename_i hnotnone hlen1
      cases h
      apply soundStore_saveState _ _ _ hst
      constructor
      · rw [branchKeys_removeBranch]
        exact hsound.1.filter _
      · have hmem : bid ∈ branchKeys (loadState st env).branches := by
          rw [mem_branchKeys_iff_lookup_isSome]
          exact Option.ne_none_iff_isSome.mp
            (fun hn => hnotnone (Option.isNone_iff_eq_none.mpr hn))
        have hfind := find?_ne_isSome (branchKeys (loadState st env).branches) bid
          hsound.1 hmem hlen1
        obtain ⟨j, hj⟩ := Option.isSome_iff_exists.mp hfind
        have hjne : j ≠ bid := by simpa using List.find?_some hj
        have hjmem : j ∈ branchKeys (loadState st env).branches :=
          List.mem_of_find?_eq_some hj
        intro hnil
        have hnil2 : removeBranch (loadState st env).branches bid = [] := hnil
        have hjrem : j ∈ branchKeys (removeBranch (loadState st env).branches bid) := by
          rw [branchKeys_removeBranch]
          exact List.mem_filter.mpr ⟨hjmem, by simpa using hjne⟩
        rw [hnil2] at hjrem
        simp [branchKeys] at hjrem

theorem soundStore_reachableCD (st : Store) (h : ReachableCD st) : soundStore st := by
  induction h with
  | start => exact soundStore_emptyStore
  | create st mid msgs env _ ih => exact soundStore_createBranch mid msgs st env ih
  | delete st st' bid env _ hok ih => exact soundStore_deleteBranch bid st st' env ih hok

/-! ## Claim theorems -/

/-- C1: starting from the pristine storage, no sequence of
`createBranch`/`deleteBranch` calls ever empties the `branches` mapping;
and calling `deleteBranch` on the sole remaining branch always fails
with the InvalidOperation error "Cannot delete the last branch" — the
error is thrown before the `saveState` call, so the persisted state the
caller holds is unchanged (an `Except.error` result carries no store). -/
theorem C1_nonempty_branch_set :
    (∀ st : Store, ReachableCD st → ∀ env : Env, (loadState st env).branches ≠ []) ∧
    (∀ (st : Store) (env : Env) (k : String) (b : ConversationBranch),
      (loadState st env).branches = [(k, b)] →
      deleteBranch k st env = Except.error "Cannot delete the last branch") := by
  constructor
  · intro st h env
    exact (soundState_loadState st env (soundStore_reachableCD st h)).2
  · intro st env k b hone
    simp [deleteBranch, hone, lookupBranch, branchKeys]

/-- Witness for C1: the pristine store loads to a nonempty branch set,
and deleting the only branch of a one-branch store reports the
last-branch error. -/
theorem C1_nonempty_branch_set_witness :
    (loadState emptyStore envA).branches ≠ [] ∧
    deleteBranch "A" store1 envA = Except.error "Cannot delete the last branch" :=
  ⟨C1_nonempty_branch_set.1 emptyStore ReachableCD.start envA,
   C1_nonempty_branch_set.2 store1 envA "A" brA rfl⟩

/-- C2 counterexample: a persisted blob that parses but has an
unexpected shape (its `currentBranchId` keys no branch) is NOT treated
like missing state — `getCurrentBranch` returns no branch at all
(`undefined` in the source), while with no persisted state it returns
the freshly initialized welcome branch. -/
theorem C2_counterexample_shape_not_validated :
    getCurrentBranch badStore envA = none ∧
    getCurrentBranch emptyStore envA = some (welcomeBranch envA) := by
  constructor
  · rfl
  · rfl

/-- C2 as amended: only an absent blob or one on which `JSON.parse`
throws is treated as no persisted state (silent re-initialization to
the welcome state, which `getCurrentBranch` then returns); a blob that
parses is used as-is with no shape validation, so `getCurrentBranch`
returns whatever `branches[currentBranchId]` is — possibly nothing. -/
theorem C2_amended_only_parse_failures_reinit :
    ∀ (st : Store) (env : Env), env.hasWindow = true →
      ((st.storageKey = none ∨ st.storageKey = some StoredBlob.unparseable) →
        loadState st env = createInitialState env ∧
        getCurrentBranch st env = some (welcomeBranch env)) ∧
      (∀ s : ConversationState, st.storageKey = some (StoredBlob.parsed s) →
        loadState st env = s ∧
        getCurrentBranch st env = lookupBranch s.branches s.currentBranchId) := by
  intro st env hw
  constructor
  · rintro (h | h) <;>
      exact ⟨by simp [loadState, hw, h],
        by simp [getCurrentBranch, loadState, hw, h, createInitialState,
          lookupBranch, welcomeBranch, welcomeMessage]⟩
  · intro s hs
    exact ⟨by simp [loadState, hw, hs], by simp [getCurrentBranch, loadState, hw, hs]⟩

/-- Witness for the amended C2 at the ill-shaped persisted blob. -/
theorem C2_amended_witness :
    loadState badStore envA = badState ∧
    getCurrentBranch badStore envA = lookupBranch badState.branches badState.currentBranchId :=
  (C2_amended_only_parse_failures_reinit badStore envA rfl).2 badState rfl

/-- C3: switching to a branch id that keys no existing branch fails
with the NotFound error "Branch not found"; the error is thrown before
`saveState`, so neither `currentBranchId` nor the persisted state
changes (an `Except.error` result carries no store). -/
theorem C3_switchBranch_not_found :
    ∀ (st : Store) (env : Env) (bid : String),
      lookupBranch (loadState st env).branches bid = none →
      switchBranch bid st env = Except.error "Branch not found" := by
  intro st env bid h
  simp [switchBranch, h]

/-- Witness for C3: switching to the absent id "Z". -/
theorem C3_switchBranch_not_found_witness :
    switchBranch "Z" store1 envA = Except.error "Branch not found" :=
  C3_switchBranch_not_found store1 envA "Z" rfl

/-- C9: deleting a branch id that keys no existing branch fails with
the NotFound error "Branch not found" (checked before the last-branch
guard and before any mutation; an `Except.error` result carries no
store, so the persisted state is unchanged). -/
theorem C9_deleteBranch_not_found :
    ∀ (st : Store) (env : Env) (bid : String),
      lookupBranch (loadState st env).branches bid = none →
      deleteBranch bid st env = Except.error "Branch not found" := by
  intro st env bid h
  simp [deleteBranch, h]

/-- Witness for C9: deleting the absent id "Z". -/
theorem C9_deleteBranch_not_found_witness :
    deleteBranch "Z" store1 envA = Except.error "Branch not found" :=
  C9_deleteBranch_not_found store1 envA "Z" rfl

/-- C5 counterexample: a valid persisted state (distinct keys, current
pointer keyed) holding a branch under the empty-string key.  Deleting
the current branch "A" succeeds, but the truthiness guard
`if (otherBranchId)` rejects the falsy key "" found by `find`, the
repoint is skipped, and the persisted `currentBranchId` still holds the
deleted id — `getCurrentBranch` then returns nothing.  So after
`deleteBranch` on a valid state, `currentBranchId` need not key an
existing entry, refuting the claim as stated. -/
theorem C5_counterexample_dangling_pointer :
    goodState (loadState storeEK envA) ∧
    deleteBranch "A" storeEK envA = Except.ok storeEK2 ∧
    getCurrentBranch storeEK2 envB = none := by
  refine ⟨by decide, by rfl, by decide⟩

/-- C5 as amended: after any operation applied in a window context to a
valid loaded state none of whose branch keys is the empty string (the
one falsy key — `crypto.randomUUID` never mints it, only a foreign
persisted blob can), `currentBranchId` keys an existing entry of
`branches`; in particular, when `deleteBranch` removes the current
branch the pointer is reassigned to an existing remaining branch. -/
theorem C5_amended_valid_current_pointer :
    ∀ (st : Store) (env : Env), env.hasWindow = true →
      goodState (loadState st env) →
      "" ∉ branchKeys (loadState st env).branches →
      (∀ env2 : Env, goodState (loadState st env2)) ∧
      (∀ (msgs : List Message) (env2 : Env),
        goodState (loadState (saveMessages msgs st env) env2)) ∧
      (∀ (mid : String) (msgs : List Message) (env2 : Env),
        goodState (loadState (createBranch mid msgs st env).1 env2)) ∧
      (∀ (bid : String) (st2 : Store) (b : ConversationBranch) (env2 : Env),
        switchBranch bid st env = Except.ok (st2, b) → goodState (loadState st2 env2)) ∧
      (∀ (bid : String) (st2 : Store) (env2 : Env),
        deleteBranch bid st env = Except.ok st2 → goodState (loadState st2 env2)) := by
  intro st env hw hgood hek
  have hst : goodStore st := by
    intro s hs
    have hload : loadState st env = s := by simp [loadState, hw, hs]
    rwa [hload] at hgood
  exact ⟨fun env2 => goodState_loadState st env2 hst,
    fun msgs env2 => goodState_loadState _ env2 (goodStore_saveMessages msgs st env hst),
    fun mid msgs env2 => goodState_loadState _ env2 (goodStore_createBranch mid msgs st env hst),
    fun bid st2 b env2 hok =>
      goodState_loadState _ env2 (goodStore_switchBranch bid st st2 b env hst hok),
    fun bid st2 env2 hok =>
      goodState_loadState _ env2
        (goodStore_deleteBranch_no_empty_key bid st st2 env hst hek hok)⟩

/-- Witness for the amended C5: after saving messages on a concrete
valid store with truthy keys the loaded state is still valid. -/
theorem C5_amended_valid_current_pointer_witness :
    goodState (loadState (saveMessages [msg1] store1 envA) envB) :=
  (C5_amended_valid_current_pointer store1 envA rfl (by decide) (by decide)).2.1 [msg1] envB

/-- C6: in a window context, saving any message sequence to a state
whose current branch exists and then reloading from persistence with a
fresh `getCurrentBranch` (any later environment — a process restart)
returns a branch whose messages equal the saved sequence. -/
theorem C6_round_trip_persistence :
    ∀ (msgs : List Message) (st : Store) (env env2 : Env),
      env.hasWindow = true → env2.hasWindow = true →
      (lookupBranch (loadState st env).branches
        (loadState st env).currentBranchId).isSome = true →
      (getCurrentBranch (saveMessages msgs st env) env2).map
        (fun b => b.messages) = some msgs := by
  intro msgs st env env2 hw hw2 hcur
  obtain ⟨cb, hcb⟩ := Option.isSome_iff_exists.mp hcur
  simp only [saveMessages, hcb, getCurrentBranch]
  rw [loadState_saveState _ st _ env2 hw hw2]
  simp [lookup_setBranch_self]

/-- Witness for C6 at a concrete store and message list. -/
theorem C6_round_trip_persistence_witness :
    (getCurrentBranch (saveMessages [msg1, msg2] store1 envA) envB).map
      (fun b => b.messages) = some [msg1, msg2] :=
  C6_round_trip_persistence [msg1, msg2] store1 envA envB rfl rfl rfl

/-- C7 counterexample: exactly two branches, A current under key "A"
and B under the empty-string key "" — hypotheses of the claim as stated
(two branches, A current, distinct ids).  `deleteBranch "A"` succeeds,
but `find` returns the falsy key "", the truthiness guard skips the
repoint, the deleted id stays persisted as current, and the subsequent
`getCurrentBranch` returns nothing rather than B. -/
theorem C7_counterexample_empty_key_skips_repoint :
    (loadState storeEK envA).branches = [("A", brA), ("", brEmptyKey)] ∧
    (loadState storeEK envA).currentBranchId = "A" ∧
    ("A" : String) ≠ "" ∧
    deleteBranch "A" storeEK envA = Except.ok storeEK2 ∧
    getCurrentBranch storeEK2 envB = none ∧
    getCurrentBranch storeEK2 envB ≠ some brEmptyKey := by
  refine ⟨by decide, by decide, by decide, by rfl, by decide, by decide⟩

/-- C7 as amended: with exactly two branches A (current) and B whose
key is truthy (non-empty — guaranteed for keys minted by
`crypto.randomUUID`), deleting A succeeds — the current pointer passes
the truthiness guard and is repointed to B — and a subsequent
`getCurrentBranch` (any window context) returns B. -/
theorem C7_amended_deletion_repoints :
    ∀ (st : Store) (env env2 : Env) (kA kB : String) (A B : ConversationBranch),
      env.hasWindow = true → env2.hasWindow = true →
      (loadState st env).branches = [(kA, A), (kB, B)] →
      (loadState st env).currentBranchId = kA →
      kA ≠ kB → kB ≠ "" →
      deleteBranch kA st env = Except.ok (saveState
        { branches := [(kB, B)], currentBranchId := kB, lastUpdated := env.now } st env) ∧
      getCurrentBranch (saveState
        { branches := [(kB, B)], currentBranchId := kB, lastUpdated := env.now } st env) env2
        = some B := by
  intro st env env2 kA kB A B hw hw2 hbr hcur hne hkB
  have hne' : kB ≠ kA := fun h => hne h.symm
  constructor
  · simp [deleteBranch, hbr, hcur, lookupBranch, branchKeys, removeBranch,
      List.find?, List.filter, hne', hkB]
  · simp only [getCurrentBranch]
    rw [loadState_saveState _ st _ env2 hw hw2]
    simp [lookupBranch]

/-- Witness for the amended C7 at a concrete two-branch store with
truthy keys. -/
theorem C7_amended_deletion_repoints_witness :
    deleteBranch "A" store2 envA = Except.ok (saveState
      { branches := [("B", brB)], currentBranchId := "B", lastUpdated := envA.now }
      store2 envA) ∧
    getCurrentBranch (saveState
      { branches := [("B", brB)], currentBranchId := "B", lastUpdated := envA.now }
      store2 envA) envB = some brB :=
  C7_amended_deletion_repoints store2 envA envB "A" "B" brA brB rfl rfl rfl rfl
    (by decide) (by decide)

/-- C8: in a window context `clearAllConversations` erases both storage
keys, so a second call is a no-op and two calls equal one (the
operation is a total function of the embedding — the source's
`removeItem` calls cannot throw); a subsequent `getCurrentBranch`
lazily re-initializes and returns the single welcome branch, whose
message list is exactly the one welcome message. -/
theorem C8_clear_idempotent :
    ∀ (st : Store) (env env2 env3 : Env),
      env.hasWindow = true →
      clearAllConversations (clearAllConversations st env) env2 =
        clearAllConversations st env ∧
      (loadState (clearAllConversations st env) env3).branches.length = 1 ∧
      getCurrentBranch (clearAllConversations st env) env3 = some (welcomeBranch env3) ∧
      (welcomeBranch env3).messages = [welcomeMessage env3] := by
  intro st env env2 env3 hw
  have h1 : clearAllConversations st env = emptyStore := by
    simp [clearAllConversations, hw]
  rw [h1]
  refine ⟨?_, ?_, ?_, rfl⟩
  · by_cases hw2 : env2.hasWindow = false <;> simp [clearAllConversations, hw2]
  · by_cases hw3 : env3.hasWindow = false <;>
      simp [loadState, hw3, emptyStore, createInitialState]
  · by_cases hw3 : env3.hasWindow = false <;>
      simp [getCurrentBranch, loadState, hw3, emptyStore, createInitialState,
        lookupBranch, welcomeBranch, welcomeMessage]

/-- Witness for C8 at a concrete populated store. -/
theorem C8_clear_idempotent_witness :
    clearAllConversations (clearAllConversations store2 envA) envB =
      clearAllConversations store2 envA ∧
    (loadState (clearAllConversations store2 envA) envB).branches.length = 1 ∧
    getCurrentBranch (clearAllConversations store2 envA) envB = some (welcomeBranch envB) ∧
    (welcomeBranch envB).messages = [welcomeMessage envB] :=
  C8_clear_idempotent store2 envA envB envB rfl

/-- C10: `getCurrentBranch` performs no storage write — in the
embedding it returns only an `Option ConversationBranch` and no
`Store`, mirroring the absence of any `setItem` on its code path, so
nothing becomes durable before the first mutating operation.  With no
persisted state, each call lazily re-initializes afresh: two calls
whose environments draw different first UUIDs return welcome branches
with different ids. -/
theorem C10_lazy_init_not_persisted :
    ∀ (st : Store) (env1 env2 : Env),
      st.storageKey = none → env1.hasWindow = true → env2.hasWindow = true →
      env1.uuid 0 ≠ env2.uuid 0 →
      getCurrentBranch st env1 = some (welcomeBranch env1) ∧
      getCurrentBranch st env2 = some (welcomeBranch env2) ∧
      (welcomeBranch env1).id = env1.uuid 0 ∧
      (welcomeBranch env2).id = env2.uuid 0 ∧
      (welcomeBranch env1).id ≠ (welcomeBranch env2).id := by
  intro st env1 env2 hnone hw1 hw2 hne
  refine ⟨?_, ?_, rfl, rfl, hne⟩ <;>
    simp [getCurrentBranch, loadState, hnone, hw1, hw2, createInitialState,
      lookupBranch, welcomeBranch, welcomeMessage]

/-- Witness for C10 at the pristine store and two environments with
distinct UUID supplies. -/
theorem C10_lazy_init_not_persisted_witness :
    getCurrentBranch emptyStore envA = some (welcomeBranch envA) ∧
    getCurrentBranch emptyStore envB = some (welcomeBranch envB) ∧
    (welcomeBranch envA).id = envA.uuid 0 ∧
    (welcomeBranch envB).id = envB.uuid 0 ∧
    (welcomeBranch envA).id ≠ (welcomeBranch envB).id :=
  C10_lazy_init_not_persisted emptyStore envA envB rfl rfl rfl (by decide)

/-- Frame lemma: `saveMessages` only rewrites the entry of the current
branch, so any other key still looks up to its previous branch. -/
theorem saveMessages_frame (st : Store) (env env2 : Env) (msgs : List Message)
    (k : String) (hw : env.hasWindow = true) (hw2 : env2.hasWindow = true)
    (hk : k ≠ (loadState st env).currentBranchId) :
    lookupBranch (loadState (saveMessages msgs st env) env2).branches k =
      lookupBranch (loadState st env).branches k := by
  simp only [saveMessages]
  rw [loadState_saveState _ st _ env2 hw hw2]
  exact lookup_setBranch_ne _ _ _ _ hk

/-- Frame lemma: `createBranch` only adds an entry under the fresh id,
so any other key still looks up to its previous branch. -/
theorem createBranch_frame (st : Store) (env env2 : Env) (mid : String)
    (msgs : List Message) (k : String)
    (hw : env.hasWindow = true) (hw2 : env2.hasWindow = true)
    (hk : k ≠ env.uuid (loadUUIDCount st env)) :
    lookupBranch (loadState (createBranch mid msgs st env).1 env2).branches k =
      lookupBranch (loadState st env).branches k := by
  simp only [createBranch]
  rw [loadState_saveState _ st _ env2 hw hw2]
  exact lookup_setBranch_ne _ _ _ _ hk

/-- After `createBranch`, the persisted current pointer is the returned
fresh id and it keys a branch holding exactly the given messages. -/
theorem createBranch_current_messages (st : Store) (env env2 : Env) (mid : String)
    (msgs : List Message) (hw : env.hasWindow = true) (hw2 : env2.hasWindow = true) :
    (loadState (createBranch mid msgs st env).1 env2).currentBranchId =
      (createBranch mid msgs st env).2 ∧
    (lookupBranch (loadState (createBranch mid msgs st env).1 env2).branches
      (createBranch mid msgs st env).2).map (fun b => b.messages) = some msgs := by
  simp only [createBranch]
  rw [loadState_saveState _ st _ env2 hw hw2]
  exact ⟨rfl, by rw [lookup_setBranch_self]; rfl⟩

/-- C4: forking a branch B with messages [m1, m2, m3] at m2 via
`createBranch(m2.id, [m1, m2])` (the fresh UUID being distinct from the
key of B, as `crypto.randomUUID` guarantees) produces a new, now
current, branch whose messages equal [m1, m2] while B still looks up
unchanged; a subsequent `saveMessages` (which rewrites only the current
— the new — branch) leaves the messages of B at [m1, m2, m3]. -/
theorem C4_fork_isolation :
    ∀ (st : Store) (env env2 env3 : Env) (kB : String) (B : ConversationBranch)
      (m1 m2 m3 : Message) (msgs2 : List Message),
      env.hasWindow = true → env2.hasWindow = true → env3.hasWindow = true →
      lookupBranch (loadState st env).branches kB = some B →
      B.messages = [m1, m2, m3] →
      env.uuid (loadUUIDCount st env) ≠ kB →
      ((lookupBranch (loadState (createBranch m2.id [m1, m2] st env).1 env2).branches
          (createBranch m2.id [m1, m2] st env).2).map (fun b => b.messages)
        = some [m1, m2]) ∧
      (loadState (createBranch m2.id [m1, m2] st env).1 env2).currentBranchId =
        (createBranch m2.id [m1, m2] st env).2 ∧
      lookupBranch (loadState (createBranch m2.id [m1, m2] st env).1 env2).branches kB
        = some B ∧
      (lookupBranch (loadState (saveMessages msgs2
          (createBranch m2.id [m1, m2] st env).1 env3) env2).branches kB).map
        (fun b => b.messages) = some [m1, m2, m3] := by
  intro st env env2 env3 kB B m1 m2 m3 msgs2 hw hw2 hw3 hB hBm hne
  have hkB : kB ≠ env.uuid (loadUUIDCount st env) := fun h => hne h.symm
  have hcur3 := (createBranch_current_messages st env env3 m2.id [m1, m2] hw hw3).1
  have hsnd : (createBranch m2.id [m1, m2] st env).2 = env.uuid (loadUUIDCount st env) := rfl
  refine ⟨?_, ?_, ?_, ?_⟩
  · exact (createBranch_current_messages st env env2 m2.id [m1, m2] hw hw2).2
  · exact (createBranch_current_messages st env env2 m2.id [m1, m2] hw hw2).1
  · rw [createBranch_frame st env env2 m2.id [m1, m2] kB hw hw2 hkB]
    exact hB
  · have hk4 : kB ≠ (loadState (createBranch m2.id [m1, m2] st env).1 env3).currentBranchId := by
      rw [hcur3, hsnd]
      exact hkB
    rw [saveMessages_frame (createBranch m2.id [m1, m2] st env).1 env3 env2 msgs2 kB hw3 hw2 hk4]
    rw [createBranch_frame st env env3 m2.id [m1, m2] kB hw hw3 hkB]
    rw [hB]
    simp [hBm]

/-- Witness for C4: forking the three-message branch of a concrete
store and then saving a different list on the fork leaves the original
branch intact. -/
theorem C4_fork_isolation_witness :
    ((lookupBranch (loadState (createBranch msg2.id [msg1, msg2] store1 envA).1 envB).branches
        (createBranch msg2.id [msg1, msg2] store1 envA).2).map (fun b => b.messages)
      = some [msg1, msg2]) ∧
    (loadState (createBranch msg2.id [msg1, msg2] store1 envA).1 envB).currentBranchId =
      (createBranch msg2.id [msg1, msg2] store1 envA).2 ∧
    lookupBranch (loadState (createBranch msg2.id [msg1, msg2] store1 envA).1 envB).branches "A"
      = some brA ∧
    (lookupBranch (loadState (saveMessages [msg3]
        (createBranch msg2.id [msg1, msg2] store1 envA).1 envB) envB).branches "A").map
      (fun b => b.messages) = some [msg1, msg2, msg3] :=
  C4_fork_isolation store1 envA envB envB "A" brA msg1 msg2 msg3 [msg3]
    rfl rfl rfl rfl rfl (by decide)
